import Mathlib

/-!
Verification of the modal input-handling core of the `Accepted` terminal
text editor (`src/mode.rs`).  The six modes (Normal, Prefix, Insert,
Replace (`R`), Search, Save) are embedded as a closed inductive type, and
each mode's `event` handler is translated arm by arm from the Rust match
expressions.  The text buffer, its cursor arithmetic, and the save
operation live outside this file's source (`buffer`/`core` crates); they
are modelled from the spec's collaborator contracts.  Fallible spots in
the handlers — the `.unwrap()` on the outer layer of the save result and
the unchecked `len() - 1` subtraction in the wheel-down arm — are made
explicit by letting every handler return an `Option`: `none` models a
panic of the process.
-/

namespace Accepted

/-- Modelled from the spec: a cursor is a zero-based (row, column) pair;
the column may legitimately equal the current line's length. -/
structure Cursor where
  row : Nat
  col : Nat
deriving DecidableEq, Repr

/-- Modelled from the spec: the text-storage core of the buffer (the
`buf.core` object of `mode.rs`): the lines of text, the cursor, and the
topmost visible row `row_offset`. -/
structure Core where
  buffer : List (List Char)
  cursor : Cursor
  row_offset : Nat
deriving DecidableEq, Repr

/-- Modelled from the spec: the buffer aggregate — text core, an optional
file path (a `PathBuf`, modelled as its string, with `to_string_lossy`
the identity), and the shared mutable search query (a `Vec<char>`). -/
structure Buffer where
  core : Core
  path : Option String
  search : List Char
deriving DecidableEq, Repr

/-- Modelled from the spec: `current_line()` returns the characters of
the line the cursor is on. -/
def Core.current_line (c : Core) : List Char :=
  c.buffer.getD c.cursor.row []

/-- Insert an element at position `n` of a list; positions past the end
leave the list unchanged (under the buffer's cursor invariant the
position is always in range). -/
def insertAt : Nat → Char → List Char → List Char
  | 0, a, l => a :: l
  | _ + 1, _, [] => []
  | n + 1, a, x :: l => x :: insertAt n a l

/-- Modelled from the spec: `insert(char)` places the character at the
cursor position of the current line and advances the cursor one column. -/
def Core.insert (ch : Char) (c : Core) : Core :=
  { c with
    buffer := c.buffer.set c.cursor.row (insertAt c.cursor.col ch (c.current_line)),
    cursor := ⟨c.cursor.row, c.cursor.col + 1⟩ }

/-- Modelled from the spec: `replace(char)` overwrites the character
under the cursor with the given one (cursor does not move). -/
def Core.replace (ch : Char) (c : Core) : Core :=
  { c with buffer := c.buffer.set c.cursor.row ((c.current_line).set c.cursor.col ch) }

/-- Modelled from the spec: `cursor_left()` — clamping move one column left. -/
def Core.cursor_left (c : Core) : Core :=
  { c with cursor := ⟨c.cursor.row, c.cursor.col - 1⟩ }

/-- Modelled from the spec: `cursor_right()` — clamping move one column
right (the column may come to rest at the line length). -/
def Core.cursor_right (c : Core) : Core :=
  { c with cursor := ⟨c.cursor.row, min (c.cursor.col + 1) (c.current_line).length⟩ }

/-- Modelled from the spec: `cursor_up()` — clamping move one row up,
re-clamping the column to the new line's length. -/
def Core.cursor_up (c : Core) : Core :=
  { c with cursor :=
      ⟨c.cursor.row - 1, min c.cursor.col (c.buffer.getD (c.cursor.row - 1) []).length⟩ }

/-- Modelled from the spec: `cursor_down()` — clamping move one row down,
re-clamping the column to the new line's length. -/
def Core.cursor_down (c : Core) : Core :=
  let r := min (c.cursor.row + 1) (c.buffer.length - 1)
  { c with cursor := ⟨r, min c.cursor.col (c.buffer.getD r []).length⟩ }

/-- Modelled from the spec: `insert_newline()` splits the current line at
the cursor and moves the cursor to the start of the new line below. -/
def Core.insert_newline (c : Core) : Core :=
  let l := c.current_line
  { c with
    buffer :=
      ((c.buffer.set c.cursor.row (l.take c.cursor.col)).take (c.cursor.row + 1))
        ++ [l.drop c.cursor.col]
        ++ ((c.buffer.set c.cursor.row (l.take c.cursor.col)).drop (c.cursor.row + 1)),
    cursor := ⟨c.cursor.row + 1, 0⟩ }

/-- Modelled from the spec: `backspase()` deletes the character before
the cursor, joining the current line onto the previous one when the
cursor is at column 0. -/
def Core.backspase (c : Core) : Core :=
  if c.cursor.col = 0 then
    if c.cursor.row = 0 then c
    else
      let prev := c.buffer.getD (c.cursor.row - 1) []
      { c with
        buffer := (c.buffer.set (c.cursor.row - 1) (prev ++ c.current_line)).eraseIdx c.cursor.row,
        cursor := ⟨c.cursor.row - 1, prev.length⟩ }
  else
    { c with
      buffer := c.buffer.set c.cursor.row ((c.current_line).eraseIdx (c.cursor.col - 1)),
      cursor := ⟨c.cursor.row, c.cursor.col - 1⟩ }

/-- The environment standing for effects outside this core: the outcome
of `Buffer::save()` — a double-wrapped result `Result<Result<(), IoError>, _>`
modelled from the spec, as a function of the buffer being saved — and the
terminal's click reverse-mapping `Term::pos`, as a function of the drawn
buffer and the clicked cell. -/
structure Env where
  saveResult : Buffer → Except Unit (Except Unit Unit)
  termPos : Buffer → Cursor → Option Cursor

/-- The six mode variants of `mode.rs`.  `Normal` carries its transient
status message, `Save` carries the in-progress path being typed; `pfx`
embeds the source's command-prefix mode (entered with space). -/
inductive Mode where
  | normal (message : String)
  | pfx
  | insert
  | r
  | search
  | save (path : String)
deriving DecidableEq, Repr

/-- The result of handling one event: stay, switch mode, or exit. -/
inductive Transition where
  | nothing
  | trans (m : Mode)
  | exit
deriving DecidableEq, Repr

/-- The keyboard part of the `termion` input event union. -/
inductive Key where
  | backspace
  | leftArrow
  | rightArrow
  | upArrow
  | downArrow
  | home
  | endK
  | pageUp
  | pageDown
  | backTab
  | delete
  | insertKey
  | f (n : Nat)
  | char (c : Char)
  | alt (c : Char)
  | ctrl (c : Char)
  | null
  | esc
deriving DecidableEq, Repr

/-- The mouse buttons of `termion`. -/
inductive MouseButton where
  | left
  | right
  | middle
  | wheelUp
  | wheelDown
deriving DecidableEq, Repr

/-- The mouse part of the `termion` input event union (coordinates are
1-based terminal cells). -/
inductive MouseEvent where
  | press (b : MouseButton) (x y : Nat)
  | release (x y : Nat)
  | hold (x y : Nat)
deriving DecidableEq, Repr

/-- A `termion` input event. -/
inductive Event where
  | key (k : Key)
  | mouse (m : MouseEvent)
  | unsupported
deriving DecidableEq, Repr

/-- Apply a text-core transformation to a buffer. -/
def onCore (f : Core → Core) (b : Buffer) : Buffer :=
  { b with core := f b.core }

/-- Rust `String::pop`: remove the last character. -/
def stringPop (s : String) : String :=
  ⟨s.data.dropLast⟩

/-- Whether an `Except` is in its `ok` branch (Rust `Result::is_ok`). -/
def exceptOk {ε α : Type} : Except ε α → Bool
  | .ok _ => true
  | .error _ => false

/-- The status message both save sites format: `"Saved to <path>"` on
success, `"Failed to save <path>"` on failure of the inner save result. -/
def saveMessage (r : Except Unit Unit) (p : String) : String :=
  if exceptOk r then "Saved to " ++ p else "Failed to save " ++ p

/-- The `while core.cursor.col % 4 != 0 { core.insert(' ') }` loop of the
Tab arm of `Insert::event`. -/
def tabFill (co : Core) : Core :=
  if co.cursor.col % 4 = 0 then co else tabFill (co.insert ' ')
termination_by (4 - co.cursor.col % 4) % 4
decreasing_by simp [Core.insert]; omega

/-- `Normal::event` from `mode.rs`, arm by arm.  The result is the
(possibly updated) mode value, the returned `Transition`, and the
(possibly mutated) buffer; `none` models a panic.  The mouse-click arm's
re-render plus `term.pos` lookup is the environment's `termPos`. -/
def Normal.event (message : String) (env : Env) (buf : Buffer) (e : Event) :
    Option (Mode × Transition × Buffer) :=
  match e with
  | .key (.char c) =>
    if c = 'i' then some (.normal message, .trans .insert, buf)
    else if c = 'I' then
      some (.normal message, .trans .insert,
        onCore (fun co =>
          { co with cursor := ⟨co.cursor.row,
              ((Core.current_line co).takeWhile (fun ch => ch == ' ')).length⟩ }) buf)
    else if c = 'a' then
      some (.normal message, .trans .insert, onCore Core.cursor_right buf)
    else if c = 'A' then
      some (.normal message, .trans .insert,
        onCore (fun co =>
          { co with cursor := ⟨co.cursor.row, (Core.current_line co).length⟩ }) buf)
    else if c = 'r' then some (.normal message, .trans .r, buf)
    else if c = 'o' then
      some (.normal message, .trans .insert, onCore Core.insert_newline buf)
    else if c = 'O' then
      some (.normal message, .trans .insert,
        onCore (fun co => (co.cursor_up).insert_newline) buf)
    else if c = 'h' then some (.normal message, .nothing, onCore Core.cursor_left buf)
    else if c = 'j' then some (.normal message, .nothing, onCore Core.cursor_down buf)
    else if c = 'k' then some (.normal message, .nothing, onCore Core.cursor_up buf)
    else if c = 'l' then some (.normal message, .nothing, onCore Core.cursor_right buf)
    else if c = '/' then some (.normal message, .trans .search, buf)
    else if c = ' ' then some (.normal message, .trans .pfx, buf)
    else some (.normal message, .nothing, buf)
  | .mouse (.press .left x y) =>
    match env.termPos buf ⟨y - 1, x - 1⟩ with
    | some c => some (.normal message, .nothing, onCore (fun co => { co with cursor := c }) buf)
    | none => some (.normal message, .nothing, buf)
  | .mouse (.press .wheelUp _ _) =>
    some (.normal message, .nothing,
      onCore (fun co =>
        { co with row_offset := if co.row_offset < 3 then 0 else co.row_offset - 3 }) buf)
  | .mouse (.press .wheelDown _ _) =>
    match buf.core.buffer.length with
    | 0 => none
    | n + 1 =>
      some (.normal message, .nothing,
        onCore (fun co => { co with row_offset := min (co.row_offset + 3) n }) buf)
  | _ => some (.normal message, .nothing, buf)

/-- `Insert::event` from `mode.rs`, arm by arm. -/
def Insert.event (_env : Env) (buf : Buffer) (e : Event) :
    Option (Mode × Transition × Buffer) :=
  match e with
  | .key .esc => some (.insert, .trans (.normal ""), buf)
  | .key .backspace => some (.insert, .nothing, onCore Core.backspase buf)
  | .key (.char c) =>
    if c = '\t' then
      some (.insert, .nothing, onCore (fun co => tabFill (co.insert ' ')) buf)
    else
      some (.insert, .nothing, onCore (Core.insert c) buf)
  | _ => some (.insert, .nothing, buf)

/-- `R::event` (Replace mode) from `mode.rs`, arm by arm. -/
def R.event (_env : Env) (buf : Buffer) (e : Event) :
    Option (Mode × Transition × Buffer) :=
  match e with
  | .key .esc => some (.r, .trans (.normal ""), buf)
  | .key (.char c) => some (.r, .trans (.normal ""), onCore (Core.replace c) buf)
  | _ => some (.r, .nothing, buf)

/-- `Search::event` from `mode.rs`, arm by arm. -/
def Search.event (_env : Env) (buf : Buffer) (e : Event) :
    Option (Mode × Transition × Buffer) :=
  match e with
  | .key .esc => some (.search, .trans (.normal ""), buf)
  | .key .backspace => some (.search, .nothing, { buf with search := buf.search.dropLast })
  | .key (.char c) =>
    if c = '\n' then some (.search, .trans (.normal ""), buf)
    else some (.search, .nothing, { buf with search := buf.search ++ [c] })
  | _ => some (.search, .nothing, buf)

/-- `Save::event` from `mode.rs`, arm by arm.  On newline the buffer's
path is set first, then `buf.save().unwrap()` is evaluated: an outer-layer
error makes the `unwrap` panic, modelled as `none`. -/
def Save.event (path : String) (env : Env) (buf : Buffer) (e : Event) :
    Option (Mode × Transition × Buffer) :=
  match e with
  | .key .esc => some (.save path, .trans (.normal ""), buf)
  | .key .backspace => some (.save (stringPop path), .nothing, buf)
  | .key (.char c) =>
    if c = '\n' then
      let buf' := { buf with path := some path }
      match env.saveResult buf' with
      | .error _ => none
      | .ok r => some (.save path, .trans (.normal (saveMessage r path)), buf')
    else
      some (.save (path.push c), .nothing, buf)
  | _ => some (.save path, .nothing, buf)

/-- `Prefix::event` from `mode.rs`, arm by arm (the mode is named `pfx`
here).  On `s` with a path present, `buf.save().unwrap()` is evaluated:
an outer-layer error makes the `unwrap` panic, modelled as `none`. -/
def Pfx.event (env : Env) (buf : Buffer) (e : Event) :
    Option (Mode × Transition × Buffer) :=
  match e with
  | .key .esc => some (.pfx, .trans (.normal ""), buf)
  | .key (.char c) =>
    if c = 'q' then some (.pfx, .exit, buf)
    else if c = 's' then
      match buf.path with
      | some p =>
        match env.saveResult buf with
        | .error _ => none
        | .ok r => some (.pfx, .trans (.normal (saveMessage r p)), buf)
      | none => some (.pfx, .trans (.save ""), buf)
    else some (.pfx, .nothing, buf)
  | _ => some (.pfx, .nothing, buf)

/-- The mode dispatcher: one event in, one `Transition` out, together
with the updated mode value and buffer; `none` models a panic. -/
def Mode.event (m : Mode) (env : Env) (buf : Buffer) (e : Event) :
    Option (Mode × Transition × Buffer) :=
  match m with
  | .normal message => Normal.event message env buf e
  | .pfx => Pfx.event env buf e
  | .insert => Insert.event env buf e
  | .r => R.event env buf e
  | .search => Search.event env buf e
  | .save path => Save.event path env buf e

/-- The events carrying an explicit arm in each mode's handler; all other
events reach the catch-all `_ => {}` arm. -/
def recognized : Mode → Event → Bool
  | .normal _, .key (.char c) =>
    c == 'i' || c == 'I' || c == 'a' || c == 'A' || c == 'r' || c == 'o' || c == 'O' ||
      c == 'h' || c == 'j' || c == 'k' || c == 'l' || c == '/' || c == ' '
  | .normal _, .mouse (.press b _ _) =>
    match b with
    | .left => true
    | .wheelUp => true
    | .wheelDown => true
    | _ => false
  | .normal _, _ => false
  | .insert, .key .esc => true
  | .insert, .key .backspace => true
  | .insert, .key (.char _) => true
  | .insert, _ => false
  | .r, .key .esc => true
  | .r, .key (.char _) => true
  | .r, _ => false
  | .search, .key .esc => true
  | .search, .key .backspace => true
  | .search, .key (.char _) => true
  | .search, _ => false
  | .save _, .key .esc => true
  | .save _, .key .backspace => true
  | .save _, .key (.char _) => true
  | .save _, _ => false
  | .pfx, .key .esc => true
  | .pfx, .key (.char c) => c == 'q' || c == 's'
  | .pfx, _ => false

/-- `n`-fold insertion of a space at the cursor (the shape the Tab arm's
insert-then-while loop takes). -/
def insertNsp : Nat → Core → Core
  | 0, co => co
  | n + 1, co => insertNsp n (co.insert ' ')

/-- A concrete environment whose save always succeeds and whose click
reverse-mapping finds no cell. -/
def envOk : Env :=
  ⟨fun _ => .ok (.ok ()), fun _ _ => none⟩

/-- A concrete environment whose save fails in the outer layer of the
double-wrapped result. -/
def envOuterErr : Env :=
  ⟨fun _ => .error (), fun _ _ => none⟩

/-- A concrete one-line pathless buffer. -/
def buf0 : Buffer :=
  ⟨⟨[['x']], ⟨0, 0⟩, 0⟩, none, []⟩

/-- A concrete one-line buffer whose path is already set. -/
def bufP : Buffer :=
  ⟨⟨[['x']], ⟨0, 0⟩, 0⟩, some "a.txt", []⟩

/-- A concrete buffer with zero lines. -/
def bufEmpty : Buffer :=
  ⟨⟨[], ⟨0, 0⟩, 0⟩, none, []⟩

theorem getD_set_self (l : List (List Char)) (n : Nat) (x : List Char)
    (h : n < l.length) : (l.set n x).getD n [] = x := by
  simp [List.getD_eq_getElem?_getD, List.getElem?_set_self h]

theorem current_line_replace (ch : Char) (co : Core) :
    (co.replace ch).current_line = (co.current_line).set co.cursor.col ch := by
  unfold Core.replace Core.current_line
  by_cases h : co.cursor.row < co.buffer.length
  · exact getD_set_self _ _ _ h
  · rw [List.set_eq_of_length_le (Nat.le_of_not_lt h)]
    simp [List.getD_eq_getElem?_getD, List.getElem?_eq_none (Nat.le_of_not_lt h)]

theorem save_newline_eq (env : Env) (buf : Buffer) (p : String) :
    Mode.event (.save p) env buf (.key (.char '\n')) =
      match env.saveResult { buf with path := some p } with
      | .error _ => none
      | .ok r => some (.save p, .trans (.normal (saveMessage r p)),
          { buf with path := some p }) := rfl

theorem pfx_s_eq (env : Env) (buf : Buffer) :
    Mode.event .pfx env buf (.key (.char 's')) =
      match buf.path with
      | some p =>
        match env.saveResult buf with
        | .error _ => none
        | .ok r => some (.pfx, .trans (.normal (saveMessage r p)), buf)
      | none => some (.pfx, .trans (.save ""), buf) := rfl

/-- Claim C7: Replace mode is one-shot: for every character `c` and every
buffer, handling `Char c` in Replace mode overwrites the character under
the cursor with `c` and returns `Trans(Normal)`, regardless of `c`. -/
theorem c7_replace_one_shot (env : Env) (buf : Buffer) (c : Char) :
    Mode.event .r env buf (.key (.char c)) =
      some (.r, .trans (.normal ""), onCore (Core.replace c) buf) ∧
    Core.current_line (onCore (Core.replace c) buf).core =
      (Core.current_line buf.core).set buf.core.cursor.col c :=
  ⟨rfl, current_line_replace c buf.core⟩

/-- Claim C8: `Esc` in Insert, Replace, Search, Save, or Prefix mode
returns `Trans(Normal)` with an empty status message; from Normal,
`i`, `a`, `A`, `o`, `O` lead to Insert and `r` leads to Replace, whose
handling of any character itself returns a fresh Normal with no message. -/
theorem c8_esc_fresh_normal (env : Env) (buf : Buffer) (p m : String) (c : Char) :
    Mode.event .insert env buf (.key .esc) = some (.insert, .trans (.normal ""), buf) ∧
    Mode.event .r env buf (.key .esc) = some (.r, .trans (.normal ""), buf) ∧
    Mode.event .search env buf (.key .esc) = some (.search, .trans (.normal ""), buf) ∧
    Mode.event (.save p) env buf (.key .esc) = some (.save p, .trans (.normal ""), buf) ∧
    Mode.event .pfx env buf (.key .esc) = some (.pfx, .trans (.normal ""), buf) ∧
    Mode.event (.normal m) env buf (.key (.char 'i')) =
      some (.normal m, .trans .insert, buf) ∧
    (∃ b₁, Mode.event (.normal m) env buf (.key (.char 'a')) =
      some (.normal m, .trans .insert, b₁)) ∧
    (∃ b₂, Mode.event (.normal m) env buf (.key (.char 'A')) =
      some (.normal m, .trans .insert, b₂)) ∧
    (∃ b₃, Mode.event (.normal m) env buf (.key (.char 'o')) =
      some (.normal m, .trans .insert, b₃)) ∧
    (∃ b₄, Mode.event (.normal m) env buf (.key (.char 'O')) =
      some (.normal m, .trans .insert, b₄)) ∧
    Mode.event (.normal m) env buf (.key (.char 'r')) =
      some (.normal m, .trans .r, buf) ∧
    (∃ b₅, Mode.event .r env buf (.key (.char c)) =
      some (.r, .trans (.normal ""), b₅)) :=
  ⟨rfl, rfl, rfl, rfl, rfl, rfl, ⟨_, rfl⟩, ⟨_, rfl⟩, ⟨_, rfl⟩, ⟨_, rfl⟩, rfl, ⟨_, rfl⟩⟩

/-- Claim C9: the search query lives on the buffer and survives mode
transitions: `/` in Normal returns `Trans(Search)` with the buffer (in
particular its `search` field) unchanged, and leaving Search via `Esc`
or newline also leaves the buffer unchanged, so any query `q` is still
in place on re-entry. -/
theorem c9_search_query_persists (env : Env) (buf : Buffer) (m : String) :
    Mode.event (.normal m) env buf (.key (.char '/')) =
      some (.normal m, .trans .search, buf) ∧
    Mode.event .search env buf (.key .esc) =
      some (.search, .trans (.normal ""), buf) ∧
    Mode.event .search env buf (.key (.char '\n')) =
      some (.search, .trans (.normal ""), buf) :=
  ⟨rfl, rfl, rfl⟩

/-- Claim C1 (counterexample): at the concrete input — Save mode with
typed path `"out.txt"`, newline, an environment whose save result is an
error in the outer layer — the handler does not return `Trans(Normal)`
with a status message: the `unwrap` of the outer layer panics, modelled
as `none`.  So the save recovery does not hold for every possible value
of the double-wrapped save result. -/
theorem c1_outer_error_panics :
    Mode.event (.save "out.txt") envOuterErr buf0 (.key (.char '\n')) = none := rfl

/-- Claim C1 (amended): whenever the outer layer of the double-wrapped
save result is `Ok`, a triggered save (newline in Save mode, or `s` in
Prefix mode with a path already set) recovers locally from any inner
save failure and returns `Trans(Normal)` carrying a status message; an
outer-layer error instead panics the `unwrap` (modelled `none`). -/
theorem c1_save_recovery_outer_ok (env : Env) (buf : Buffer) (p q : String)
    (r₁ r₂ : Except Unit Unit) :
    (env.saveResult { buf with path := some p } = .ok r₁ →
      Mode.event (.save p) env buf (.key (.char '\n')) =
        some (.save p, .trans (.normal (saveMessage r₁ p)), { buf with path := some p })) ∧
    (buf.path = some q → env.saveResult buf = .ok r₂ →
      Mode.event .pfx env buf (.key (.char 's')) =
        some (.pfx, .trans (.normal (saveMessage r₂ q)), buf)) := by
  constructor
  · intro h
    rw [save_newline_eq, h]
  · intro hp hs
    rw [pfx_s_eq, hp, hs]

/-- Witness for C1's amended theorem: a buffer with path `"a.txt"`, the
always-succeeding save environment, typed path `"out.txt"`. -/
theorem c1_witness :
    Mode.event (.save "out.txt") envOk bufP (.key (.char '\n')) =
      some (.save "out.txt", .trans (.normal (saveMessage (.ok ()) "out.txt")),
        { bufP with path := some "out.txt" }) ∧
    Mode.event .pfx envOk bufP (.key (.char 's')) =
      some (.pfx, .trans (.normal (saveMessage (.ok ()) "a.txt")), bufP) :=
  ⟨(c1_save_recovery_outer_ok envOk bufP "out.txt" "a.txt" (.ok ()) (.ok ())).1 rfl,
   (c1_save_recovery_outer_ok envOk bufP "out.txt" "a.txt" (.ok ()) (.ok ())).2 rfl rfl⟩

/-- Claim C5: in Save mode with in-progress path `p`, newline sets the
buffer's path to `p` before invoking save, and (when the outer layer of
the save result is `Ok`, so the handler completes) returns `Trans(Normal)`
whose message is exactly `"Saved to " ++ p` on inner success and
`"Failed to save " ++ p` on inner failure; in both outcomes the buffer's
path remains `some p`. -/
theorem c5_save_newline (env : Env) (buf : Buffer) (p : String) (r : Except Unit Unit)
    (h : env.saveResult { buf with path := some p } = .ok r) :
    Mode.event (.save p) env buf (.key (.char '\n')) =
      some (.save p,
        .trans (.normal (if exceptOk r then "Saved to " ++ p else "Failed to save " ++ p)),
        { buf with path := some p }) ∧
    (Buffer.path { buf with path := some p } = some p) := by
  refine ⟨?_, rfl⟩
  rw [save_newline_eq, h]
  rfl

/-- Witness for C5: the pathless one-line buffer, typed path `"out.txt"`,
save succeeding. -/
theorem c5_witness :
    Mode.event (.save "out.txt") envOk buf0 (.key (.char '\n')) =
      some (.save "out.txt",
        .trans (.normal (if exceptOk (Except.ok () : Except Unit Unit)
          then "Saved to " ++ "out.txt" else "Failed to save " ++ "out.txt")),
        { buf0 with path := some "out.txt" }) ∧
    (Buffer.path { buf0 with path := some "out.txt" } = some "out.txt") :=
  c5_save_newline envOk buf0 "out.txt" (.ok ()) rfl

/-- Claim C6: in Prefix mode, `s` branches on the buffer's path: with a
path present it saves immediately and (outer layer `Ok`) returns
`Trans(Normal)` carrying the same save-result wording as Save mode
(`saveMessage`); with no path it returns `Trans(Save)` whose in-progress
path starts empty, the buffer untouched and the save not invoked. -/
theorem c6_pfx_s (env : Env) (buf : Buffer) (q : String) (r : Except Unit Unit) :
    (buf.path = some q → env.saveResult buf = .ok r →
      Mode.event .pfx env buf (.key (.char 's')) =
        some (.pfx, .trans (.normal (saveMessage r q)), buf)) ∧
    (buf.path = none →
      Mode.event .pfx env buf (.key (.char 's')) =
        some (.pfx, .trans (.save ""), buf)) := by
  constructor
  · intro hp hs
    rw [pfx_s_eq, hp, hs]
  · intro hp
    rw [pfx_s_eq, hp]

/-- Witness for C6: the with-path branch on `bufP`, the no-path branch on
`buf0`. -/
theorem c6_witness :
    Mode.event .pfx envOk bufP (.key (.char 's')) =
      some (.pfx, .trans (.normal (saveMessage (.ok ()) "a.txt")), bufP) ∧
    Mode.event .pfx envOk buf0 (.key (.char 's')) =
      some (.pfx, .trans (.save ""), buf0) :=
  ⟨(c6_pfx_s envOk bufP "a.txt" (.ok ())).1 rfl rfl,
   (c6_pfx_s envOk buf0 "a.txt" (.ok ())).2 rfl⟩

/-- Claim C4: in Normal mode, on any buffer satisfying the spec's
at-least-one-line invariant, mouse wheel-up sets `row_offset` to
`row_offset - 3` floored at 0 (truncated subtraction), wheel-down sets it
to `min (row_offset + 3) (line_count - 1)`, and from
`row_offset = line_count - 1` wheel-down leaves the buffer unchanged;
all three return `Transition.nothing`. -/
theorem c4_wheel_clamps (m : String) (env : Env) (buf : Buffer) (x y : Nat)
    (h : 1 ≤ buf.core.buffer.length) :
    Mode.event (.normal m) env buf (.mouse (.press .wheelUp x y)) =
      some (.normal m, .nothing,
        onCore (fun co => { co with row_offset := co.row_offset - 3 }) buf) ∧
    Mode.event (.normal m) env buf (.mouse (.press .wheelDown x y)) =
      some (.normal m, .nothing,
        onCore (fun co =>
          { co with
            row_offset := min (co.row_offset + 3) (buf.core.buffer.length - 1) }) buf) ∧
    (buf.core.row_offset = buf.core.buffer.length - 1 →
      Mode.event (.normal m) env buf (.mouse (.press .wheelDown x y)) =
        some (.normal m, .nothing, buf)) := by
  obtain ⟨n, hn⟩ : ∃ n, buf.core.buffer.length = n + 1 :=
    ⟨buf.core.buffer.length - 1, by omega⟩
  refine ⟨?_, ?_, ?_⟩
  · have hup : (if buf.core.row_offset < 3 then 0 else buf.core.row_offset - 3) =
        buf.core.row_offset - 3 := by split_ifs <;> omega
    simp only [Mode.event, Normal.event, onCore, hup]
  · simp only [Mode.event, Normal.event, onCore, hn]
    simp
  · intro hro
    have hmin : min (buf.core.row_offset + 3) n = buf.core.row_offset := by omega
    simp only [Mode.event, Normal.event, onCore, hn, hmin]

/-- Witness for C4: the one-line buffer `buf0`. -/
theorem c4_witness :
    Mode.event (.normal "") envOk buf0 (.mouse (.press .wheelUp 1 1)) =
      some (.normal "", .nothing,
        onCore (fun co => { co with row_offset := co.row_offset - 3 }) buf0) ∧
    Mode.event (.normal "") envOk buf0 (.mouse (.press .wheelDown 1 1)) =
      some (.normal "", .nothing,
        onCore (fun co =>
          { co with
            row_offset := min (co.row_offset + 3) (buf0.core.buffer.length - 1) }) buf0) ∧
    (buf0.core.row_offset = buf0.core.buffer.length - 1 →
      Mode.event (.normal "") envOk buf0 (.mouse (.press .wheelDown 1 1)) =
        some (.normal "", .nothing, buf0)) :=
  c4_wheel_clamps "" envOk buf0 1 1 (by decide)

/-- Claim C10: the Normal-mode wheel-down handler is total only for
non-empty buffers: with at least one line it succeeds, setting
`row_offset` to `min (row_offset + 3) (line_count - 1)` (so at most
`line_count - 1`); with zero lines the unguarded `line_count - 1`
subtraction underflows — modelled as a panic, `none`. -/
theorem c10_wheel_down_totality (m : String) (env : Env) (buf : Buffer) (x y : Nat) :
    (1 ≤ buf.core.buffer.length →
      ∃ buf', Mode.event (.normal m) env buf (.mouse (.press .wheelDown x y)) =
          some (.normal m, .nothing, buf') ∧
        buf'.core.row_offset =
          min (buf.core.row_offset + 3) (buf.core.buffer.length - 1) ∧
        buf'.core.row_offset ≤ buf.core.buffer.length - 1) ∧
    (buf.core.buffer.length = 0 →
      Mode.event (.normal m) env buf (.mouse (.press .wheelDown x y)) = none) := by
  constructor
  · intro h
    obtain ⟨n, hn⟩ : ∃ n, buf.core.buffer.length = n + 1 :=
      ⟨buf.core.buffer.length - 1, by omega⟩
    refine ⟨onCore (fun co => { co with row_offset := min (co.row_offset + 3) n }) buf,
      ?_, ?_, ?_⟩
    · simp only [Mode.event, Normal.event, onCore, hn]
    · simp [onCore, hn]
    · simp only [onCore, hn]
      omega
  · intro h
    simp only [Mode.event, Normal.event, h]

/-- Witness for C10: the non-empty branch on `buf0`, the empty-buffer
panic on `bufEmpty`. -/
theorem c10_witness :
    (∃ buf', Mode.event (.normal "") envOk buf0 (.mouse (.press .wheelDown 1 1)) =
        some (.normal "", .nothing, buf') ∧
      buf'.core.row_offset =
        min (buf0.core.row_offset + 3) (buf0.core.buffer.length - 1) ∧
      buf'.core.row_offset ≤ buf0.core.buffer.length - 1) ∧
    Mode.event (.normal "") envOk bufEmpty (.mouse (.press .wheelDown 1 1)) = none :=
  ⟨(c10_wheel_down_totality "" envOk buf0 1 1).1 (by decide),
   (c10_wheel_down_totality "" envOk bufEmpty 1 1).2 rfl⟩

/-- Claim C2: for every mode and every input event outside that mode's
recognized set, handling the event returns `Transition.nothing`, keeps
the same mode value, and leaves the buffer (text, cursor, `row_offset`,
path and search query) completely unchanged. -/
theorem c2_unrecognized_noop (m : Mode) (env : Env) (buf : Buffer) (e : Event)
    (h : recognized m e = false) :
    Mode.event m env buf e = some (m, .nothing, buf) := by
  cases m <;> cases e <;>
    first
    | rfl
    | (rename_i k
       cases k <;>
         first
         | rfl
         | simp_all [recognized, Mode.event, Normal.event, Insert.event, R.event,
             Search.event, Save.event, Pfx.event])
    | (rename_i mo
       rcases mo with ⟨b, xx, yy⟩ | ⟨xx, yy⟩ | ⟨xx, yy⟩ <;>
         first
         | rfl
         | (cases b <;>
             simp_all [recognized, Mode.event, Normal.event, Insert.event, R.event,
               Search.event, Save.event, Pfx.event]))

/-- Witness for C2: in Normal mode the character `z` is unrecognized and
handling it is a pure no-op. -/
theorem c2_witness :
    recognized (.normal "") (.key (.char 'z')) = false ∧
    Mode.event (.normal "") envOk bufP (.key (.char 'z')) =
      some (.normal "", .nothing, bufP) :=
  ⟨by decide, c2_unrecognized_noop (.normal "") envOk bufP (.key (.char 'z')) (by decide)⟩

theorem insertAt_eq_take_append (a : Char) :
    ∀ (n : Nat) (l : List Char), n ≤ l.length →
      insertAt n a l = l.take n ++ a :: l.drop n := by
  intro n
  induction n with
  | zero => intro l h; simp [insertAt]
  | succ k ih =>
    intro l h
    cases l with
    | nil => simp at h
    | cons x t => simp [insertAt, ih t (by simpa using h)]

theorem current_line_insert (ch : Char) (co : Core)
    (hr : co.cursor.row < co.buffer.length)
    (hc : co.cursor.col ≤ (co.current_line).length) :
    (co.insert ch).current_line =
      (co.current_line).take co.cursor.col ++ ch :: (co.current_line).drop co.cursor.col := by
  have h1 : (co.insert ch).current_line =
      (co.buffer.set co.cursor.row
        (insertAt co.cursor.col ch co.current_line)).getD co.cursor.row [] := rfl
  rw [h1, getD_set_self _ _ _ hr, insertAt_eq_take_append ch _ _ hc]

theorem insertNsp_spec (n : Nat) : ∀ co : Core,
    co.cursor.row < co.buffer.length →
    co.cursor.col ≤ (co.current_line).length →
    (insertNsp n co).cursor.col = co.cursor.col + n ∧
    (insertNsp n co).cursor.row = co.cursor.row ∧
    (insertNsp n co).current_line =
      (co.current_line).take co.cursor.col ++ List.replicate n ' '
        ++ (co.current_line).drop co.cursor.col ∧
    (insertNsp n co).row_offset = co.row_offset := by
  induction n with
  | zero =>
    intro co hr hc
    refine ⟨rfl, rfl, ?_, rfl⟩
    simp [insertNsp]
  | succ k ih =>
    intro co hr hc
    have hline := current_line_insert ' ' co hr hc
    have hr' : (co.insert ' ').cursor.row < (co.insert ' ').buffer.length := by
      simpa [Core.insert] using hr
    have hlt : ((co.current_line).take co.cursor.col).length = co.cursor.col := by
      simp [List.length_take]
      omega
    have hlen : ((co.insert ' ').current_line).length = (co.current_line).length + 1 := by
      rw [hline]
      simp
      omega
    have hc' : (co.insert ' ').cursor.col ≤ ((co.insert ' ').current_line).length := by
      show co.cursor.col + 1 ≤ _
      rw [hlen]
      omega
    obtain ⟨h1, h2, h3, h4⟩ := ih (co.insert ' ') hr' hc'
    have ecol : (co.insert ' ').cursor.col = co.cursor.col + 1 := rfl
    have erow : (co.insert ' ').cursor.row = co.cursor.row := rfl
    have eoff : (co.insert ' ').row_offset = co.row_offset := rfl
    refine ⟨?_, ?_, ?_, ?_⟩
    · show (insertNsp k (co.insert ' ')).cursor.col = _
      rw [h1, ecol]
      omega
    · show (insertNsp k (co.insert ' ')).cursor.row = _
      rw [h2, erow]
    · show (insertNsp k (co.insert ' ')).current_line = _
      rw [h3, ecol, hline]
      have htake : ((co.current_line).take co.cursor.col
            ++ ' ' :: (co.current_line).drop co.cursor.col).take (co.cursor.col + 1) =
          (co.current_line).take co.cursor.col ++ [' '] := by
        rw [List.take_append_eq_append_take,
          List.take_of_length_le (by rw [hlt]; omega)]
        congr 1
        rw [hlt]
        have h1' : co.cursor.col + 1 - co.cursor.col = 1 := by omega
        rw [h1']
        simp
      have hdrop : ((co.current_line).take co.cursor.col
            ++ ' ' :: (co.current_line).drop co.cursor.col).drop (co.cursor.col + 1) =
          (co.current_line).drop co.cursor.col := by
        rw [List.drop_append_eq_append_drop,
          List.drop_of_length_le (by rw [hlt]; omega)]
        rw [hlt]
        have h1' : co.cursor.col + 1 - co.cursor.col = 1 := by omega
        rw [h1']
        simp
      rw [htake, hdrop, List.replicate_succ]
      simp
    · show (insertNsp k (co.insert ' ')).row_offset = _
      rw [h4, eoff]

theorem tabFill_step (co : Core) (h : ¬ co.cursor.col % 4 = 0) :
    tabFill co = tabFill (co.insert ' ') := by
  rw [tabFill]
  exact if_neg h

theorem tabFill_done (co : Core) (h : co.cursor.col % 4 = 0) :
    tabFill co = co := by
  rw [tabFill]
  exact if_pos h

theorem tabFill_eq_insertNsp (co : Core) :
    tabFill co = insertNsp ((4 - co.cursor.col % 4) % 4) co := by
  have e1 : (co.insert ' ').cursor.col = co.cursor.col + 1 := rfl
  have e2 : ((co.insert ' ').insert ' ').cursor.col = co.cursor.col + 2 := rfl
  have e3 : (((co.insert ' ').insert ' ').insert ' ').cursor.col = co.cursor.col + 3 := rfl
  have h4 : co.cursor.col % 4 = 0 ∨ co.cursor.col % 4 = 1 ∨ co.cursor.col % 4 = 2 ∨
      co.cursor.col % 4 = 3 := by omega
  rcases h4 with h | h | h | h
  · rw [tabFill_done co h]
    have : (4 - co.cursor.col % 4) % 4 = 0 := by omega
    rw [this]
    rfl
  · rw [tabFill_step co (by omega),
      tabFill_step _ (by rw [e1]; omega),
      tabFill_step _ (by rw [e2]; omega),
      tabFill_done _ (by rw [e3]; omega)]
    have : (4 - co.cursor.col % 4) % 4 = 3 := by omega
    rw [this]
    rfl
  · rw [tabFill_step co (by omega),
      tabFill_step _ (by rw [e1]; omega),
      tabFill_done _ (by rw [e2]; omega)]
    have : (4 - co.cursor.col % 4) % 4 = 2 := by omega
    rw [this]
    rfl
  · rw [tabFill_step co (by omega),
      tabFill_done _ (by rw [e1]; omega)]
    have : (4 - co.cursor.col % 4) % 4 = 1 := by omega
    rw [this]
    rfl

theorem tab_spec (co : Core) :
    tabFill (co.insert ' ') = insertNsp (4 - co.cursor.col % 4) co := by
  rw [tabFill_eq_insertNsp (co.insert ' ')]
  have e1 : (co.insert ' ').cursor.col = co.cursor.col + 1 := rfl
  rw [e1]
  have h : (4 - (co.cursor.col + 1) % 4) % 4 + 1 = 4 - co.cursor.col % 4 := by omega
  rw [← h]
  rfl

/-- Claim C3: in Insert mode, on any buffer satisfying the spec's cursor
invariant (row in range, column at most the line length), handling Tab
inserts only space characters — the current line becomes the old one with
a block of spaces spliced in at the cursor column — and leaves the cursor
at a column `c' > c` with `c' % 4 = 0`. -/
theorem c3_insert_tab (env : Env) (buf : Buffer)
    (hrow : buf.core.cursor.row < buf.core.buffer.length)
    (hcol : buf.core.cursor.col ≤ (Core.current_line buf.core).length) :
    ∃ buf', Mode.event .insert env buf (.key (.char '\t')) =
        some (.insert, .nothing, buf') ∧
      buf.core.cursor.col < buf'.core.cursor.col ∧
      buf'.core.cursor.col % 4 = 0 ∧
      Core.current_line buf'.core =
        (Core.current_line buf.core).take buf.core.cursor.col
          ++ List.replicate (buf'.core.cursor.col - buf.core.cursor.col) ' '
          ++ (Core.current_line buf.core).drop buf.core.cursor.col := by
  refine ⟨onCore (fun co => tabFill (co.insert ' ')) buf, rfl, ?_, ?_, ?_⟩ <;>
    simp only [onCore] <;>
    rw [tab_spec buf.core] <;>
    obtain ⟨h1, h2, h3, h4⟩ := insertNsp_spec (4 - buf.core.cursor.col % 4) buf.core hrow hcol
  · rw [h1]
    omega
  · rw [h1]
    omega
  · rw [h3, h1]
    have : buf.core.cursor.col + (4 - buf.core.cursor.col % 4) - buf.core.cursor.col =
        4 - buf.core.cursor.col % 4 := by omega
    rw [this]

/-- Witness for C3: Tab on the one-line buffer `buf0` at column 0. -/
theorem c3_witness :
    (buf0.core.cursor.row < buf0.core.buffer.length) ∧
    (buf0.core.cursor.col ≤ (Core.current_line buf0.core).length) ∧
    (∃ buf', Mode.event .insert envOk buf0 (.key (.char '\t')) =
        some (.insert, .nothing, buf') ∧
      buf0.core.cursor.col < buf'.core.cursor.col ∧
      buf'.core.cursor.col % 4 = 0 ∧
      Core.current_line buf'.core =
        (Core.current_line buf0.core).take buf0.core.cursor.col
          ++ List.replicate (buf'.core.cursor.col - buf0.core.cursor.col) ' '
          ++ (Core.current_line buf0.core).drop buf0.core.cursor.col) :=
  ⟨by decide, by decide, c3_insert_tab envOk buf0 (by decide) (by decide)⟩

end Accepted
